import Mathlib

set_option maxRecDepth 8000

/-!
Verification of the streaming layer of lm-webui (SSEService.ts and
StreamingService.ts): the SSE frame decoder, the stream reader fold, the
connection registry, the facade retry policy, and the WebSocket session
manager's reconnect/backoff, timeout, cancellation and event dispatch logic.

JS strings are modelled as List Char at the buffer level and String at the
value level; JSON.parse is modelled by an executable recursive-descent parser
over the JSON grammar; JS runtime values appearing in `any`-typed positions
are modelled by the JValue type together with JS truthiness and JS string
coercion.
-/

namespace SSEModel

/-- Runtime JSON values as produced by the JS builtin JSON.parse. Numbers are
kept in exact decimal form, mantissa times ten to the power exp10 (JSON text
has no NaN or infinities), so no floating point is involved. -/
inductive JValue where
  | jnull : JValue
  | jbool : Bool → JValue
  | jnum : (mantissa : Int) → (exp10 : Int) → JValue
  | jstr : String → JValue
  | jarr : List JValue → JValue
  | jobj : List (String × JValue) → JValue

/-- JS truthiness of a runtime value (null, false, 0 and the empty string are
falsy; every object and array is truthy). -/
def jsTruthy : JValue → Bool
  | .jnull => false
  | .jbool b => b
  | .jnum m _ => m != 0
  | .jstr s => s != ""
  | .jarr _ => true
  | .jobj _ => true

/-- Last-wins field lookup, matching the JS object built by JSON.parse when a
key is repeated (the later member overwrites the earlier one). -/
def jfieldLast : List (String × JValue) → String → Option JValue
  | [], _ => none
  | p :: rest, key =>
    match jfieldLast rest key with
    | some w => some w
    | none => if p.1 = key then some p.2 else none

/-- Property access v.k as used on `any`-typed values: defined on objects,
undefined (none) on every other runtime value. -/
def jsGet : JValue → String → Option JValue
  | .jobj fs, key => jfieldLast fs key
  | _, _ => none

/-- The JS expression `a || b` where a is a possibly-undefined property. -/
def jsOr (v : Option JValue) (dflt : JValue) : JValue :=
  match v with
  | some x => if jsTruthy x then x else dflt
  | none => dflt

/-- Rendering of a JSON-derived number when coerced to a JS string. Exact for
integers; no claim input coerces a non-integer number. -/
def numRender (m e : Int) : String :=
  if 0 ≤ e then toString (m * 10 ^ e.toNat) else toString m ++ "e" ++ toString e

mutual
/-- JS string coercion of a runtime value, as performed by `+=` on a string:
objects render as "[object Object]", arrays join their elements with commas
(null elements joining as the empty string, as Array.prototype.join does). -/
def jsToString : JValue → String
  | .jnull => "null"
  | .jbool b => if b then "true" else "false"
  | .jnum m e => numRender m e
  | .jstr s => s
  | .jarr xs => jsArrJoin xs
  | .jobj _ => "[object Object]"

def jsArrJoin : List JValue → String
  | [] => ""
  | [JValue.jnull] => ""
  | [x] => jsToString x
  | JValue.jnull :: xs => "," ++ jsArrJoin xs
  | x :: xs => jsToString x ++ "," ++ jsArrJoin xs
end

/-- JSON insignificant whitespace. -/
def jsonWs (c : Char) : Bool := c == ' ' || c == '\t' || c == '\n' || c == '\r'

def skipWs : List Char → List Char
  | [] => []
  | c :: rest => if jsonWs c then skipWs rest else c :: rest

def hexVal (c : Char) : Option Nat :=
  if '0' ≤ c ∧ c ≤ '9' then some (c.toNat - 48)
  else if 'a' ≤ c ∧ c ≤ 'f' then some (c.toNat - 87)
  else if 'A' ≤ c ∧ c ≤ 'F' then some (c.toNat - 55)
  else none

def escChar (c : Char) : Option Char :=
  if c = '"' then some '"'
  else if c = '\\' then some '\\'
  else if c = '/' then some '/'
  else if c = 'b' then some (Char.ofNat 8)
  else if c = 'f' then some (Char.ofNat 12)
  else if c = 'n' then some '\n'
  else if c = 'r' then some '\r'
  else if c = 't' then some '\t'
  else none

/-- Scanner for the body of a JSON string literal (after the opening quote),
modelling the corresponding part of the JS builtin JSON.parse: it stops at the
closing quote, resolves escapes, and rejects raw control characters. Unicode
escapes map through Char.ofNat (surrogate pairing is not modelled; no claim
input uses unicode escapes). -/
def parseStringBody : List Char → Option (List Char × List Char)
  | [] => none
  | c :: rest =>
    if c = '"' then some ([], rest)
    else if c = '\\' then
      match rest with
      | [] => none
      | e :: rest2 =>
        if e = 'u' then
          match rest2 with
          | h1 :: h2 :: h3 :: h4 :: rest3 =>
            match hexVal h1, hexVal h2, hexVal h3, hexVal h4 with
            | some a, some b, some c2, some d =>
              (match parseStringBody rest3 with
               | some (s, r) =>
                 some (Char.ofNat (((a * 16 + b) * 16 + c2) * 16 + d) :: s, r)
               | none => none)
            | _, _, _, _ => none
          | _ => none
        else
          match escChar e with
          | some ch =>
            (match parseStringBody rest2 with
             | some (s, r) => some (ch :: s, r)
             | none => none)
          | none => none
    else if c.toNat < 32 then none
    else
      match parseStringBody rest with
      | some (s, r) => some (c :: s, r)
      | none => none

def natOfDigits (ds : List Char) : Nat :=
  ds.foldl (fun a c => a * 10 + (c.toNat - 48)) 0

/-- JSON number grammar: optional minus, integer part with no leading zero,
optional fraction, optional exponent. -/
def parseNumber (cs : List Char) : Option (JValue × List Char) :=
  let signSplit :=
    match cs with
    | '-' :: r => (true, r)
    | _ => (false, cs)
  let neg := signSplit.1
  let cs1 := signSplit.2
  let intDs := cs1.takeWhile Char.isDigit
  let rest1 := cs1.dropWhile Char.isDigit
  if intDs = [] then none
  else if 2 ≤ intDs.length ∧ intDs.headD '0' = '0' then none
  else
    let fracParse :=
      match rest1 with
      | '.' :: r =>
        let fds := r.takeWhile Char.isDigit
        if fds = [] then none else some (fds, r.dropWhile Char.isDigit)
      | _ => some (([] : List Char), rest1)
    match fracParse with
    | none => none
    | some (fracDs, rest2) =>
      let expParse :=
        match rest2 with
        | e :: r =>
          if e = 'e' ∨ e = 'E' then
            let signSplit2 :=
              match r with
              | '+' :: rr => ((1 : Int), rr)
              | '-' :: rr => ((-1 : Int), rr)
              | _ => ((1 : Int), r)
            let eds := signSplit2.2.takeWhile Char.isDigit
            if eds = [] then none
            else some (signSplit2.1 * (natOfDigits eds : Int),
                       signSplit2.2.dropWhile Char.isDigit)
          else some ((0 : Int), rest2)
        | [] => some ((0 : Int), rest2)
      match expParse with
      | none => none
      | some (ex, rest3) =>
        let mag : Int := (natOfDigits (intDs ++ fracDs) : Int)
        some (JValue.jnum (if neg then -mag else mag) (ex - (fracDs.length : Int)),
              rest3)

mutual
/-- Fuel-indexed model of the JS builtin JSON.parse value parser. The fuel
only bounds the recursion depth; every nested call receives a strictly
shorter input, so a fuel larger than the input length never runs out
(jsonParse passes length + 2). -/
def parseValueF : Nat → List Char → Option (JValue × List Char)
  | 0, _ => none
  | fuel + 1, cs =>
    let cs1 := skipWs cs
    if ("true".toList).isPrefixOf cs1 then some (.jbool true, cs1.drop 4)
    else if ("false".toList).isPrefixOf cs1 then some (.jbool false, cs1.drop 5)
    else if ("null".toList).isPrefixOf cs1 then some (.jnull, cs1.drop 4)
    else
      match cs1 with
      | '"' :: rest =>
        (match parseStringBody rest with
         | some (s, r) => some (.jstr (String.mk s), r)
         | none => none)
      | '\x7b' :: rest =>
        (match skipWs rest with
         | '\x7d' :: r2 => some (.jobj [], r2)
         | _ =>
           match parseMembersF fuel rest with
           | some (ms, r2) => some (.jobj ms, r2)
           | none => none)
      | '[' :: rest =>
        (match skipWs rest with
         | ']' :: r2 => some (.jarr [], r2)
         | _ =>
           match parseElemsF fuel rest with
           | some (vs, r2) => some (.jarr vs, r2)
           | none => none)
      | _ => parseNumber cs1

def parseMembersF : Nat → List Char → Option (List (String × JValue) × List Char)
  | 0, _ => none
  | fuel + 1, cs =>
    match skipWs cs with
    | '"' :: rest =>
      (match parseStringBody rest with
       | some (key, rest2) =>
         (match skipWs rest2 with
          | ':' :: rest3 =>
            (match parseValueF fuel rest3 with
             | some (v, rest4) =>
               (match skipWs rest4 with
                | ',' :: rest5 =>
                  (match parseMembersF fuel rest5 with
                   | some (ms, rest6) => some ((String.mk key, v) :: ms, rest6)
                   | none => none)
                | '\x7d' :: rest5 => some ([(String.mk key, v)], rest5)
                | _ => none)
             | none => none)
          | _ => none)
       | none => none)
    | _ => none

def parseElemsF : Nat → List Char → Option (List JValue × List Char)
  | 0, _ => none
  | fuel + 1, cs =>
    match parseValueF fuel cs with
    | some (v, rest) =>
      (match skipWs rest with
       | ',' :: rest2 =>
         (match parseElemsF fuel rest2 with
          | some (vs, rest3) => some (v :: vs, rest3)
          | none => none)
       | ']' :: rest2 => some ([v], rest2)
       | _ => none)
    | none => none
end

/-- Model of JSON.parse: parse one value and require only whitespace after it. -/
def jsonParse (cs : List Char) : Option JValue :=
  match parseValueF (cs.length + 2) cs with
  | some (v, rest) => if skipWs rest = [] then some v else none
  | none => none

/-- Error classification from SSEService.ts (enum StreamErrorType). -/
inductive StreamErrorType where
  | NETWORK | TIMEOUT | SERVER | PARSE | CANCELLED | MAX_RETRIES
deriving DecidableEq

/-- Classified stream error (class StreamError). -/
structure StreamError where
  message : String
  type : StreamErrorType
  recoverable : Bool
  retryAfter : Option Nat := none
deriving DecidableEq

/-- A decoded SSE event. The runtime `type` field is whatever value
`data.type || 'chunk'` produced (a string in practice, but nothing enforces
it), so it is kept as a JValue; the wall-clock `timestamp` field is metadata
used by no claim and is omitted. -/
structure SSEEvent where
  type : JValue
  data : JValue
  id : Option JValue

/-- Characters removed by JS String.trim on the inputs in scope. -/
def trimWs (c : Char) : Bool :=
  c == ' ' || c == '\t' || c == '\n' || c == '\r' || c == '\x0b' || c == '\x0c'

/-- JS s.trim(): drop whitespace at both ends. -/
def trimChars (cs : List Char) : List Char :=
  ((cs.dropWhile trimWs).reverse.dropWhile trimWs).reverse

/-- JS strict equality of a runtime value against a string literal. -/
def jIsStr (v : JValue) (s : String) : Bool :=
  match v with
  | .jstr t => t == s
  | _ => false

/-- SSEStreamReader.parseSSELine: a `data: `-prefixed line has its payload
JSON-parsed into a typed event, with unparseable payloads degrading to a chunk
carrying the raw payload text; any other line degrades to a chunk carrying the
line itself. -/
def parseSSELine (line : List Char) : Option SSEEvent :=
  if ("data: ".toList).isPrefixOf line then
    let jsonStr := trimChars (line.drop 6)
    match jsonParse jsonStr with
    | some d =>
      some { type := jsOr (jsGet d "type") (.jstr "chunk")
             data := jsOr (jsGet d "data") d
             id := jsGet d "id" }
    | none =>
      some { type := .jstr "chunk"
             data := .jobj [("content", .jstr (String.mk jsonStr))]
             id := none }
  else
    some { type := .jstr "chunk"
           data := .jobj [("content", .jstr (String.mk line))]
           id := none }

/-- The split of `buffer.split('\n\n')` with the last element popped off:
first component is the list of complete frames, second the retained tail
(the trailing incomplete frame kept in this.buffer). -/
def splitParts : List Char → List (List Char) × List Char
  | [] => ([], [])
  | [c] => ([], [c])
  | c1 :: c2 :: rest =>
    if c1 = '\n' ∧ c2 = '\n' then
      ([] :: (splitParts rest).1, (splitParts rest).2)
    else
      match splitParts (c2 :: rest) with
      | ([], buf) => ([], c1 :: buf)
      | (h :: t, buf) => ((c1 :: h) :: t, buf)

/-- One frame of SSEStreamReader.parseBuffer's loop body: trim, skip blank,
parse. -/
def decodeLine (l : List Char) : Option SSEEvent :=
  let t := trimChars l
  if t = [] then none else parseSSELine t

/-- SSEStreamReader.parseBuffer on a given buffer content: split on blank
lines, decode every complete frame, keep the incomplete tail as new buffer. -/
def parseBuffer (buffer : List Char) : List SSEEvent × List Char :=
  ((splitParts buffer).1.filterMap decodeLine, (splitParts buffer).2)

/-- One transport delivery in SSEStreamReader.readEvents: append the decoded
text chunk to the buffer and drain parseBuffer, accumulating the events. -/
def feedOne (st : List SSEEvent × List Char) (d : List Char) :
    List SSEEvent × List Char :=
  (st.1 ++ (parseBuffer (st.2 ++ d)).1, (parseBuffer (st.2 ++ d)).2)

/-- The loop of readEvents over a whole sequence of deliveries, starting from
an empty buffer. -/
def processAll (ds : List (List Char)) : List SSEEvent × List Char :=
  ds.foldl feedOne ([], [])

/-- The synthetic event yielded by readEvents when the transport reports the
stream done. -/
def generatorCompleteEvent : SSEEvent :=
  { type := .jstr "complete"
    data := .jobj [("message", .jstr "Stream completed")]
    id := none }

/-- The error constructed by SSEStreamReader for user cancellation, both when
cancel() emits it to the error observer and when the read loop throws it. -/
def cancelledStreamError : StreamError :=
  { message := "Stream cancelled by user", type := .CANCELLED, recoverable := false }

/-- SSEStreamReader.readEvents: a cancelled reader throws the cancelled error
at the next loop iteration; otherwise all deliveries are decoded and a
complete event is appended at end of stream. -/
def readEventsRun (isCancelled : Bool) (ds : List (List Char)) :
    Except StreamError (List SSEEvent) :=
  if isCancelled then .error cancelledStreamError
  else .ok ((processAll ds).1 ++ [generatorCompleteEvent])

/-- One step of the readToCompletion fold: chunk events append
`event.data.content || event.data` (string-coerced) to the aggregate, status
events only invoke a callback, error events throw a non-recoverable SERVER
StreamError, complete and unknown events are no-ops. -/
def foldEvent (acc : String) (ev : SSEEvent) : Except StreamError String :=
  if jIsStr ev.type "chunk" then
    .ok (acc ++ jsToString (jsOr (jsGet ev.data "content") ev.data))
  else if jIsStr ev.type "status" then .ok acc
  else if jIsStr ev.type "error" then
    .error { message := jsToString (jsOr (jsGet ev.data "message") (.jstr "Stream error"))
             type := .SERVER
             recoverable := false }
  else .ok acc

/-- The readToCompletion loop over an event sequence (an error event aborts
the fold, as the thrown StreamError ends the for-await loop). -/
def foldEvents : String → List SSEEvent → Except StreamError String
  | acc, [] => .ok acc
  | acc, ev :: rest =>
    match foldEvent acc ev with
    | .ok acc2 => foldEvents acc2 rest
    | .error e => .error e

/-- SSEStreamReader.readToCompletion over a delivery sequence (uncancelled
reader): fold every decoded event plus the final complete event. -/
def readToCompletionRun (ds : List (List Char)) : Except StreamError String :=
  foldEvents "" ((processAll ds).1 ++ [generatorCompleteEvent])

/-- SSEService.streamChat. The attempt function models one full execution of
SSEManager.createStream plus readToCompletion; its argument is the maxRetries
value carried by the callbacks of that execution (the caller's own value on
the first attempt, 0 on the retry). -/
def streamChat (attempt : Option Nat → Except StreamError String)
    (mr : Option Nat) : Except StreamError String :=
  match attempt mr with
  | .ok s => .ok s
  | .error e =>
    if e.recoverable ∧ e.type ≠ .CANCELLED then
      match attempt (some 0) with
      | .ok s => .ok s
      | .error _ => .error e
    else .error e

/-- The sequence of attempt executions streamChat performs, each recorded by
the maxRetries value its callbacks carry. -/
def streamChatCalls (attempt : Option Nat → Except StreamError String)
    (mr : Option Nat) : List (Option Nat) :=
  match attempt mr with
  | .ok _ => [mr]
  | .error e =>
    if e.recoverable ∧ e.type ≠ .CANCELLED then [mr, some 0] else [mr]

/-- The mutable state of an SSEStreamReader relevant to cancellation, plus
the trace of errors delivered to the registered error observer. -/
structure ReaderState where
  isCancelled : Bool
  readerAttached : Bool
  heartbeatActive : Bool
  emittedErrors : List StreamError
deriving DecidableEq

/-- SSEStreamReader.cleanup: clear the heartbeat timer and release the
transport reader (idempotent, throws nothing). -/
def readerCleanup (s : ReaderState) : ReaderState :=
  { s with heartbeatActive := false, readerAttached := false }

/-- SSEStreamReader.cancel: set the cancelled flag, run cleanup, then emit a
synthetic cancelled error to the error observer — on every call, with no
guard against repeated invocation. -/
def readerCancel (s : ReaderState) : ReaderState :=
  let s1 := readerCleanup { s with isCancelled := true }
  { s1 with emittedErrors := s1.emittedErrors ++ [cancelledStreamError] }

/-- Association-list model of a JS Map: lookup. -/
def alistLookup {β : Type} : List (String × β) → String → Option β
  | [], _ => none
  | p :: rest, k => if p.1 = k then some p.2 else alistLookup rest k

/-- Association-list model of a JS Map: set replaces an existing key in place
and otherwise appends (insertion order preserved). -/
def alistSet {β : Type} : List (String × β) → String → β → List (String × β)
  | [], k, v => [(k, v)]
  | p :: rest, k, v => if p.1 = k then (k, v) :: rest else p :: alistSet rest k v

/-- Association-list model of a JS Map: delete. -/
def alistDelete {β : Type} : List (String × β) → String → List (String × β)
  | [], _ => []
  | p :: rest, k => if p.1 = k then rest else p :: alistDelete rest k

/-- The registry key SSEManager.createStream computes for a new stream:
url + "-" + Date.now(). -/
def streamKey (url : String) (now : Nat) : String :=
  url ++ "-" ++ toString now

/-- Registry-affecting operations of SSEManager: registration of a reader
when createStream succeeds, and the auto-cleanup deletion that runs when that
reader's readToCompletion settles (its terminal state). -/
inductive RegOp where
  | openStream (url : String) (now : Nat) (handle : Nat)
  | settleStream (url : String) (now : Nat)

/-- Effect of one operation on the activeStreams map. -/
def applyRegOp (reg : List (String × Nat)) : RegOp → List (String × Nat)
  | .openStream url now h => alistSet reg (streamKey url now) h
  | .settleStream url now => alistDelete reg (streamKey url now)

/-- The activeStreams map after a trace of operations. -/
def runRegOps (ops : List RegOp) : List (String × Nat) :=
  ops.foldl applyRegOp []

/-- Per-key trace semantics: the handle of the last open of this key not
followed by a settle of the same key. -/
def regSpecLookup (ops : List RegOp) (k : String) : Option Nat :=
  ops.foldl
    (fun acc op =>
      match op with
      | .openStream url now h => if streamKey url now = k then some h else acc
      | .settleStream url now => if streamKey url now = k then none else acc)
    none

/-- The mutable state of StreamingService relevant to the reconnect policy,
plus the trace of scheduled reconnect delays and emitted event categories. -/
structure WSState where
  isConnecting : Bool
  heartbeatActive : Bool
  reconnectAttempts : Nat
  maxReconnectAttempts : Nat
  scheduledDelays : List Nat
  emittedCategories : List String
deriving DecidableEq

/-- The backoff delay computed in StreamingService.handleReconnect:
min(1000 * 2^attempt, 30000) milliseconds. -/
def backoffDelay (n : Nat) : Nat := min (1000 * 2 ^ n) 30000

/-- StreamingService.handleReconnect: below the bound, increment the attempt
counter and schedule a reconnect after the backoff delay; at the bound, do
nothing at all (no error of any kind is emitted). -/
def handleReconnect (s : WSState) : WSState :=
  if s.reconnectAttempts < s.maxReconnectAttempts then
    { s with
      reconnectAttempts := s.reconnectAttempts + 1
      scheduledDelays := s.scheduledDelays ++ [backoffDelay (s.reconnectAttempts + 1)] }
  else s

/-- The websocket onclose handler: stop the heartbeat, run handleReconnect
unless the closure code is the normal-closure code 1000, then emit the
disconnected event. -/
def onCloseEvent (code : Nat) (s : WSState) : WSState :=
  let s1 := { s with isConnecting := false, heartbeatActive := false }
  let s2 := if code ≠ 1000 then handleReconnect s1 else s1
  { s2 with emittedCategories := s2.emittedCategories ++ ["disconnected"] }

/-- An error surfaced to a caller of StreamingService: either a plain JS
Error (no classification) or a classified StreamError (the shape the spec
prescribes; StreamingService never constructs one). -/
inductive WSCallerError where
  | plainErr (message : String)
  | classifiedErr (e : StreamError)
deriving DecidableEq

/-- The connection-timeout timer body in StreamingService.connectWebSocket:
if the handshake is still pending when the window elapses, close the socket
and reject the promise with a plain Error. Returns (socket closed?, rejection
delivered to the caller). -/
def connectTimeoutFire (isConnecting : Bool) : Bool × Option WSCallerError :=
  if isConnecting then (true, some (.plainErr "WebSocket connection timeout"))
  else (false, none)

/-- Whether an error surfaced to the caller is classified with category
timeout and marked recoverable. -/
def isTimeoutClassified : WSCallerError → Bool
  | .classifiedErr e => e.type == .TIMEOUT && e.recoverable
  | .plainErr _ => false

/-- The forEach body of StreamingService.emitEvent over the listener list of
one category: each listener (identified by subscription index) is invoked;
a throwing listener's exception is caught inside the loop and logged, so the
result is a plain pair (invocation order, caught messages) rather than an
exception-carrying computation. -/
def emitLoop (invoke : Nat → Except String Unit) : List Nat → List Nat × List String
  | [] => ([], [])
  | l :: rest =>
    match invoke l with
    | .ok _ => (l :: (emitLoop invoke rest).1, (emitLoop invoke rest).2)
    | .error msg => (l :: (emitLoop invoke rest).1, msg :: (emitLoop invoke rest).2)

/-- StreamingService.emitEvent: dispatch to the listeners of a category if
the category is present in the listener map. -/
def emitEventDispatch (m : List (String × List Nat))
    (invoke : Nat → Except String Unit) (cat : String) : List Nat × List String :=
  match alistLookup m cat with
  | some ls => emitLoop invoke ls
  | none => ([], [])

/-- StreamingService.on: create the category's list if absent, then push the
listener at the end. -/
def onSubscribe (m : List (String × List Nat)) (cat : String) (l : Nat) :
    List (String × List Nat) :=
  let m1 :=
    match alistLookup m cat with
    | some _ => m
    | none => alistSet m cat []
  alistSet m1 cat ((alistLookup m1 cat).getD [] ++ [l])

/-- The canonical decoded form of a well-formed chunk frame carrying content
c: what parseSSELine produces for a frame whose payload is the tagged JSON
object with a content string. -/
def chunkEventOf (c : String) : SSEEvent :=
  { type := .jstr "chunk", data := .jobj [("content", .jstr c)], id := none }

/-- A well-formed single-line chunk frame body carrying content c: free of
newlines, non-blank, decoding to the canonical chunk event. The nonemptiness
of c is the amendment forced by the `event.data.content || event.data`
fallback. -/
def ChunkFrame (f : List Char) (c : String) : Prop :=
  '\n' ∉ f ∧ trimChars f ≠ [] ∧ c ≠ "" ∧ parseSSELine (trimChars f) = some (chunkEventOf c)

/-- In-order concatenation of a list of strings. -/
def sconcat : List String → String
  | [] => ""
  | s :: rest => s ++ sconcat rest

/-- The SSE frame separator, a blank line. -/
def sepNN : List Char := ['\n', '\n']

/-- The terminal complete frame of the scenario, as delivered bytes. -/
def completeFrameBytes : List Char :=
  "data: \x7b\"type\":\"complete\",\"data\":\x7b\x7d\x7d\n\n".toList

/-- The first chunk frame body of the scenario. -/
def heFrameBody : List Char :=
  "data: \x7b\"type\":\"chunk\",\"data\":\x7b\"content\":\"He\"\x7d\x7d".toList

/-- The second chunk frame body of the scenario. -/
def lloFrameBody : List Char :=
  "data: \x7b\"type\":\"chunk\",\"data\":\x7b\"content\":\"llo\"\x7d\x7d".toList

/-- A well-formed chunk frame whose content is the empty string, as delivered
bytes (used to refute the unamended claim). -/
def emptyChunkFrameBytes : List Char :=
  "data: \x7b\"type\":\"chunk\",\"data\":\x7b\"content\":\"\"\x7d\x7d\n\n".toList

/-- The decoded form of the scenario's terminal complete frame: its data
field is the (truthy) empty object. -/
def parsedCompleteEvent : SSEEvent :=
  { type := .jstr "complete", data := .jobj [], id := none }

end SSEModel

namespace SSEModel

/-! ### Helper lemmas -/

theorem stringAppendAssoc (a b c : String) : a ++ b ++ c = a ++ (b ++ c) := by
  apply String.ext
  simp [String.data_append]

theorem alistLookup_set_eq {β : Type} (m : List (String × β)) (k : String) (v : β) :
    alistLookup (alistSet m k v) k = some v := by
  induction m with
  | nil => simp [alistSet, alistLookup]
  | cons p rest ih =>
    by_cases h : p.1 = k
    · simp [alistSet, alistLookup, h]
    · simp [alistSet, alistLookup, h, ih]

theorem alistLookup_set_ne {β : Type} (m : List (String × β)) (k k' : String) (v : β)
    (h : k' ≠ k) : alistLookup (alistSet m k' v) k = alistLookup m k := by
  induction m with
  | nil => simp [alistSet, alistLookup, h]
  | cons p rest ih =>
    by_cases hp : p.1 = k'
    · simp [alistSet, alistLookup, hp, h]
    · simp [alistSet, alistLookup, hp, ih]

theorem alistLookup_none_of_not_mem {β : Type} (m : List (String × β)) (k : String)
    (h : k ∉ m.map Prod.fst) : alistLookup m k = none := by
  induction m with
  | nil => rfl
  | cons p rest ih =>
    simp only [List.map_cons, List.mem_cons, not_or] at h
    have hne : ¬ p.1 = k := fun he => h.1 he.symm
    simp [alistLookup, hne, ih h.2]

theorem alistLookup_delete_eq {β : Type} (m : List (String × β)) (k : String)
    (hnd : (m.map Prod.fst).Nodup) : alistLookup (alistDelete m k) k = none := by
  induction m with
  | nil => rfl
  | cons p rest ih =>
    simp only [List.map_cons, List.nodup_cons] at hnd
    by_cases h : p.1 = k
    · simp only [alistDelete, if_pos h]
      exact alistLookup_none_of_not_mem rest k (h ▸ hnd.1)
    · simp [alistDelete, alistLookup, h, ih hnd.2]

theorem alistLookup_delete_ne {β : Type} (m : List (String × β)) (k k' : String)
    (h : k' ≠ k) : alistLookup (alistDelete m k') k = alistLookup m k := by
  induction m with
  | nil => rfl
  | cons p rest ih =>
    by_cases hp : p.1 = k'
    · have hne : ¬ p.1 = k := fun he => h (hp.symm.trans he)
      simp [alistDelete, alistLookup, hp, hne, h]
    · simp [alistDelete, alistLookup, hp, ih]

theorem alistSet_keys_mem {β : Type} (m : List (String × β)) (k : String) (v : β)
    (x : String) (hx : x ∈ (alistSet m k v).map Prod.fst) :
    x = k ∨ x ∈ m.map Prod.fst := by
  induction m with
  | nil => simpa [alistSet] using hx
  | cons p rest ih =>
    by_cases h : p.1 = k
    · simp only [alistSet, if_pos h, List.map_cons, List.mem_cons] at hx
      rcases hx with hx | hx
      · exact Or.inl hx
      · exact Or.inr (by simp [hx])
    · simp only [alistSet, if_neg h, List.map_cons, List.mem_cons] at hx
      rcases hx with hx | hx
      · exact Or.inr (by simp [hx])
      · rcases ih hx with hx | hx
        · exact Or.inl hx
        · exact Or.inr (by simp [hx])

theorem alistSet_nodup {β : Type} (m : List (String × β)) (k : String) (v : β)
    (hnd : (m.map Prod.fst).Nodup) : ((alistSet m k v).map Prod.fst).Nodup := by
  induction m with
  | nil => simp [alistSet]
  | cons p rest ih =>
    rw [List.map_cons, List.nodup_cons] at hnd
    by_cases h : p.1 = k
    · have hs : alistSet (p :: rest) k v = (k, v) :: rest := by simp [alistSet, h]
      rw [hs, List.map_cons, List.nodup_cons]
      exact ⟨h ▸ hnd.1, hnd.2⟩
    · have hs : alistSet (p :: rest) k v = p :: alistSet rest k v := by simp [alistSet, h]
      rw [hs, List.map_cons, List.nodup_cons]
      refine ⟨?_, ih hnd.2⟩
      intro hmem
      rcases alistSet_keys_mem rest k v p.1 hmem with he | he
      · exact h he
      · exact hnd.1 he

theorem alistDelete_sublist {β : Type} (m : List (String × β)) (k : String) :
    (alistDelete m k).Sublist m := by
  induction m with
  | nil => exact List.Sublist.refl []
  | cons p rest ih =>
    by_cases h : p.1 = k
    · have hd : alistDelete (p :: rest) k = rest := by simp [alistDelete, h]
      rw [hd]
      exact List.sublist_cons_self p rest
    · have hd : alistDelete (p :: rest) k = p :: alistDelete rest k := by
        simp [alistDelete, h]
      rw [hd]
      exact ih.cons₂ p

theorem alistDelete_nodup {β : Type} (m : List (String × β)) (k : String)
    (hnd : (m.map Prod.fst).Nodup) : ((alistDelete m k).map Prod.fst).Nodup :=
  ((alistDelete_sublist m k).map Prod.fst).nodup hnd

/-! ### C1 -/

/-- C1: for every chat request whose first streaming attempt fails with a
classified error, SSEService.streamChat retries exactly once — with the
retry attempt's callbacks carrying maxRetries 0 — when the error is
recoverable and not CANCELLED, returning the retry's aggregate when it
succeeds and surfacing the original first-attempt error when the retry also
fails; a non-recoverable or CANCELLED error propagates immediately with no
second attempt. -/
theorem C1_facade_retry_policy
    (attempt : Option Nat → Except StreamError String) (mr : Option Nat)
    (e : StreamError) (hfail : attempt mr = .error e) :
    (e.recoverable = true → e.type ≠ .CANCELLED →
      streamChatCalls attempt mr = [mr, some 0] ∧
      streamChat attempt mr =
        (match attempt (some 0) with
         | .ok s => .ok s
         | .error _ => .error e)) ∧
    ((e.recoverable = false ∨ e.type = .CANCELLED) →
      streamChat attempt mr = .error e ∧ streamChatCalls attempt mr = [mr]) := by
  constructor
  · intro hrec hnc
    simp only [streamChat, streamChatCalls, hfail]
    rw [if_pos ⟨hrec, hnc⟩, if_pos ⟨hrec, hnc⟩]
    exact ⟨rfl, rfl⟩
  · intro hor
    have hneg : ¬ (e.recoverable = true ∧ e.type ≠ .CANCELLED) := by
      rcases hor with h | h
      · intro hc
        rw [h] at hc
        exact absurd hc.1 (by simp)
      · intro hc
        exact hc.2 h
    simp only [streamChat, streamChatCalls, hfail]
    rw [if_neg hneg, if_neg hneg]
    exact ⟨rfl, rfl⟩

/-- C1 witness: a concrete recoverable NETWORK failure on the first attempt
followed by a successful retry — two attempts are made, the second with
maxRetries 0, and the retry's aggregate is returned. -/
theorem C1_facade_retry_policy_witness :
    streamChatCalls
        (fun o => match o with
          | some 0 => .ok "retried aggregate"
          | _ => .error { message := "net down", type := .NETWORK, recoverable := true })
        none
      = [none, some 0] ∧
    streamChat
        (fun o => match o with
          | some 0 => .ok "retried aggregate"
          | _ => .error { message := "net down", type := .NETWORK, recoverable := true })
        none
      = .ok "retried aggregate" := by
  have h :=
    (C1_facade_retry_policy
      (fun o => match o with
        | some 0 => .ok "retried aggregate"
        | _ => .error { message := "net down", type := .NETWORK, recoverable := true })
      none
      { message := "net down", type := .NETWORK, recoverable := true }
      rfl).1 rfl (by decide)
  exact ⟨h.1, h.2⟩

/-! ### C5 -/

/-- C5 counterexample: calling cancel() twice delivers the synthetic
cancelled error to the error observer twice — the second call is not a
no-op, contradicting the claim that it produces no further error. -/
theorem C5_second_cancel_not_noop_counterexample :
    (readerCancel (readerCancel
        { isCancelled := false, readerAttached := true,
          heartbeatActive := true, emittedErrors := [] })).emittedErrors
      = [cancelledStreamError, cancelledStreamError] ∧
    (readerCancel
        { isCancelled := false, readerAttached := true,
          heartbeatActive := true, emittedErrors := [] }).emittedErrors
      = [cancelledStreamError] := ⟨rfl, rfl⟩

/-- C5 (amended): every call to cancel() — including a repeated call or a
call after natural completion — idempotently sets the cancelled state and
releases the heartbeat and transport resources, but appends one more
cancelled-classified error to the error observer on each call; a reader whose
cancelled flag is set fails its read loop with the cancelled error, and the
auto-cleanup that runs when the loop settles deletes the stream's key from
the Connection Registry. -/
theorem C5_cancel_per_call (s : ReaderState) (ds : List (List Char))
    (reg : List (String × Nat)) (url : String) (now : Nat)
    (hnd : (reg.map Prod.fst).Nodup) :
    readerCancel s =
      { isCancelled := true, readerAttached := false, heartbeatActive := false,
        emittedErrors := s.emittedErrors ++ [cancelledStreamError] } ∧
    cancelledStreamError.type = .CANCELLED ∧
    readEventsRun true ds = .error cancelledStreamError ∧
    alistLookup (applyRegOp reg (.settleStream url now)) (streamKey url now) = none := by
  refine ⟨rfl, rfl, rfl, ?_⟩
  exact alistLookup_delete_eq reg (streamKey url now) hnd

/-- C5 witness: the amended behavior at a concrete fresh reader, delivery
list, and singleton registry. -/
theorem C5_cancel_per_call_witness :
    readerCancel
        { isCancelled := false, readerAttached := true,
          heartbeatActive := true, emittedErrors := [] }
      = { isCancelled := true, readerAttached := false, heartbeatActive := false,
          emittedErrors := [cancelledStreamError] } ∧
    cancelledStreamError.type = .CANCELLED ∧
    readEventsRun true [] = .error cancelledStreamError ∧
    alistLookup (applyRegOp [(streamKey "u" 7, 1)] (.settleStream "u" 7))
        (streamKey "u" 7) = none := by
  have h := C5_cancel_per_call
    { isCancelled := false, readerAttached := true,
      heartbeatActive := true, emittedErrors := [] }
    [] [(streamKey "u" 7, 1)] "u" 7 (by simp)
  exact h

/-! ### C6 -/

/-- C6 counterexample: an abnormal close (code 1006) arriving with the
attempt counter already at the bound (3 of 3) emits no retriesExhausted
error — indeed no error event at all — and schedules nothing: only the
disconnected event is emitted, contradicting the claim that exceeding the
bound yields a retriesExhausted error. -/
theorem C6_no_retries_exhausted_error_counterexample :
    onCloseEvent 1006
        { isConnecting := false, heartbeatActive := false,
          reconnectAttempts := 3, maxReconnectAttempts := 3,
          scheduledDelays := [], emittedCategories := [] }
      = { isConnecting := false, heartbeatActive := false,
          reconnectAttempts := 3, maxReconnectAttempts := 3,
          scheduledDelays := [], emittedCategories := ["disconnected"] } := by decide

/-- C6 (amended): an abnormal closure (code other than 1000) schedules one
backoff reconnect attempt while the attempt counter is below the bound; once
the bound is reached it schedules nothing and emits no error — the session is
silently left disconnected; a normal closure (code 1000) never triggers
reconnection. -/
theorem C6_reconnect_policy (s : WSState) (code : Nat) :
    (code ≠ 1000 → s.reconnectAttempts < s.maxReconnectAttempts →
      onCloseEvent code s =
        { s with isConnecting := false, heartbeatActive := false,
                 reconnectAttempts := s.reconnectAttempts + 1,
                 scheduledDelays :=
                   s.scheduledDelays ++ [backoffDelay (s.reconnectAttempts + 1)],
                 emittedCategories := s.emittedCategories ++ ["disconnected"] }) ∧
    (code ≠ 1000 → ¬ s.reconnectAttempts < s.maxReconnectAttempts →
      onCloseEvent code s =
        { s with isConnecting := false, heartbeatActive := false,
                 emittedCategories := s.emittedCategories ++ ["disconnected"] }) ∧
    (code = 1000 →
      onCloseEvent code s =
        { s with isConnecting := false, heartbeatActive := false,
                 emittedCategories := s.emittedCategories ++ ["disconnected"] }) := by
  refine ⟨?_, ?_, ?_⟩
  · intro h1 h2
    simp [onCloseEvent, handleReconnect, h1, h2]
  · intro h1 h2
    simp [onCloseEvent, handleReconnect, h1, h2]
  · intro h1
    simp [onCloseEvent, h1]

/-- C6 witness: a fresh session hit by an abnormal close schedules the first
backoff attempt; the same session hit by a normal close schedules nothing. -/
theorem C6_reconnect_policy_witness :
    onCloseEvent 1006
        { isConnecting := false, heartbeatActive := true,
          reconnectAttempts := 0, maxReconnectAttempts := 3,
          scheduledDelays := [], emittedCategories := [] }
      = { isConnecting := false, heartbeatActive := false,
          reconnectAttempts := 1, maxReconnectAttempts := 3,
          scheduledDelays := [backoffDelay 1], emittedCategories := ["disconnected"] } ∧
    onCloseEvent 1000
        { isConnecting := false, heartbeatActive := true,
          reconnectAttempts := 0, maxReconnectAttempts := 3,
          scheduledDelays := [], emittedCategories := [] }
      = { isConnecting := false, heartbeatActive := false,
          reconnectAttempts := 0, maxReconnectAttempts := 3,
          scheduledDelays := [], emittedCategories := ["disconnected"] } := by
  constructor
  · exact (C6_reconnect_policy
      { isConnecting := false, heartbeatActive := true,
        reconnectAttempts := 0, maxReconnectAttempts := 3,
        scheduledDelays := [], emittedCategories := [] } 1006).1
      (by decide) (by decide)
  · exact (C6_reconnect_policy
      { isConnecting := false, heartbeatActive := true,
        reconnectAttempts := 0, maxReconnectAttempts := 3,
        scheduledDelays := [], emittedCategories := [] } 1000).2.2 rfl

/-! ### C7 -/

/-- C7: the backoff delay computed before reconnect attempt n, for n from 1
to 5, is min(1000 * 2^n, 30000) ms — concretely 2000, 4000, 8000, 16000 and
30000 ms. -/
theorem C7_backoff_delays (n : Nat) (h1 : 1 ≤ n) (h2 : n ≤ 5) :
    backoffDelay n = [2000, 4000, 8000, 16000, 30000].getD (n - 1) 0 := by
  interval_cases n <;> decide

/-- C7 witness: the capped delay of attempt 5. -/
theorem C7_backoff_delays_witness :
    backoffDelay 5 = [2000, 4000, 8000, 16000, 30000].getD 4 0 :=
  C7_backoff_delays 5 (by decide) (by decide)

/-! ### C8 -/

/-- C8 counterexample: when the handshake window elapses with the connection
still pending, the caller's promise is rejected with a plain JS Error
carrying the message "WebSocket connection timeout" — an error with no
classification at all, hence not classified as category timeout and not
marked recoverable, contradicting the claim. -/
theorem C8_unclassified_timeout_counterexample :
    connectTimeoutFire true = (true, some (.plainErr "WebSocket connection timeout")) ∧
    isTimeoutClassified (.plainErr "WebSocket connection timeout") = false :=
  ⟨rfl, rfl⟩

/-- C8 (amended): if the handshake has not reached the connected state when
the configured window elapses, the attempt is aborted — the socket is closed
and the caller's promise rejected — but the rejection is a plain unclassified
Error ("WebSocket connection timeout"), not a timeout-classified recoverable
error; if the handshake already completed, the timer does nothing. -/
theorem C8_handshake_timeout_behavior :
    connectTimeoutFire true = (true, some (.plainErr "WebSocket connection timeout")) ∧
    connectTimeoutFire false = (false, none) ∧
    (∀ m : String, isTimeoutClassified (.plainErr m) = false) :=
  ⟨rfl, rfl, fun _ => rfl⟩

/-! ### C10 -/

theorem emitLoop_cons (invoke : Nat → Except String Unit) (l : Nat) (rest : List Nat) :
    emitLoop invoke (l :: rest)
      = match invoke l with
        | .ok _ => (l :: (emitLoop invoke rest).1, (emitLoop invoke rest).2)
        | .error msg => (l :: (emitLoop invoke rest).1, msg :: (emitLoop invoke rest).2) :=
  rfl

theorem emitLoop_invokes_all (invoke : Nat → Except String Unit) (ls : List Nat) :
    (emitLoop invoke ls).1 = ls := by
  induction ls with
  | nil => rfl
  | cons l rest ih =>
    rw [emitLoop_cons]
    cases h : invoke l <;> simp [ih]

theorem emitLoop_caught (invoke : Nat → Except String Unit) (ls : List Nat) :
    (emitLoop invoke ls).2
      = ls.filterMap
          (fun i => match invoke i with | .ok _ => none | .error msg => some msg) := by
  induction ls with
  | nil => rfl
  | cons l rest ih =>
    rw [emitLoop_cons]
    cases h : invoke l <;> simp [h, ih]

/-- C10: dispatching an inbound event to a category invokes every listener
of that category in subscription order (StreamingService.on appends at the
end of the category's list), regardless of which listeners throw; a throwing
listener's exception is caught inside the dispatch loop (collected here as
the caught-message list) and never propagates, so the listeners after it are
still invoked. -/
theorem C10_dispatch_order_and_isolation (m : List (String × List Nat))
    (invoke : Nat → Except String Unit) (cat : String) (l : Nat) :
    (emitEventDispatch m invoke cat).1 = (alistLookup m cat).getD [] ∧
    (emitEventDispatch m invoke cat).2
      = ((alistLookup m cat).getD []).filterMap
          (fun i => match invoke i with | .ok _ => none | .error msg => some msg) ∧
    alistLookup (onSubscribe m cat l) cat = some ((alistLookup m cat).getD [] ++ [l]) := by
  refine ⟨?_, ?_, ?_⟩
  · unfold emitEventDispatch
    cases h : alistLookup m cat
    · simp
    · simp [emitLoop_invokes_all]
  · unfold emitEventDispatch
    cases h : alistLookup m cat
    · simp
    · simp [emitLoop_caught]
  · unfold onSubscribe
    cases h : alistLookup m cat
    · simp only [h, Option.getD_none]
      rw [alistLookup_set_eq]
      simp [alistLookup_set_eq]
    · simp only [h, Option.getD_some]
      rw [alistLookup_set_eq]

end SSEModel

namespace SSEModel

/-! ### C4: split invariance of the stateful decoder -/

theorem splitParts_fst_nil (x : List Char) (h : (splitParts x).1 = []) :
    (splitParts x).2 = x := by
  induction x using splitParts.induct with
  | case1 => rfl
  | case2 c => rfl
  | case3 c1 c2 rest hc ih =>
    exact absurd h (by simp [splitParts, if_pos hc])
  | case4 c1 c2 rest hc buf heq ih =>
    have hb : buf = c2 :: rest := by
      have h2 := ih (by rw [heq])
      rw [heq] at h2
      exact h2
    simp [splitParts, hc, heq, hb]
  | case5 c1 c2 rest hc h0 t buf heq ih =>
    exact absurd h (by simp [splitParts, hc, heq])

theorem splitParts_append (x y : List Char) :
    splitParts (x ++ y)
      = ((splitParts x).1 ++ (splitParts ((splitParts x).2 ++ y)).1,
         (splitParts ((splitParts x).2 ++ y)).2) := by
  induction x using splitParts.induct with
  | case1 => simp [splitParts]
  | case2 c => simp [splitParts]
  | case3 c1 c2 rest hc ih =>
    obtain ⟨h1, h2⟩ := hc
    subst h1
    subst h2
    simp only [List.cons_append, splitParts, and_self, if_true, List.append_eq]
    rw [ih]
  | case4 c1 c2 rest hc buf heq ih =>
    have hb : buf = c2 :: rest := by
      have h2 := splitParts_fst_nil (c2 :: rest) (by rw [heq])
      rw [heq] at h2
      exact h2
    have hx : splitParts (c1 :: c2 :: rest) = ([], c1 :: buf) := by
      simp [splitParts, hc, heq]
    rw [hx]
    simp only [List.nil_append, hb, List.cons_append]
  | case5 c1 c2 rest hc h0 t buf heq ih =>
    have hx : splitParts (c1 :: c2 :: rest) = ((c1 :: h0) :: t, buf) := by
      simp [splitParts, hc, heq]
    have hz : splitParts (c2 :: (rest ++ y))
        = (h0 :: (t ++ (splitParts (buf ++ y)).1), (splitParts (buf ++ y)).2) := by
      have h3 := ih
      rw [List.cons_append, heq] at h3
      simpa using h3
    rw [hx]
    show splitParts (c1 :: c2 :: (rest ++ y)) = _
    simp [splitParts, hc, hz]

theorem feedOne_append (st : List SSEEvent × List Char) (d1 d2 : List Char) :
    feedOne (feedOne st d1) d2 = feedOne st (d1 ++ d2) := by
  unfold feedOne parseBuffer
  have h2 : st.2 ++ (d1 ++ d2) = (st.2 ++ d1) ++ d2 := (List.append_assoc _ _ _).symm
  rw [h2, splitParts_append (st.2 ++ d1) d2]
  simp [List.filterMap_append, List.append_assoc]

theorem processAll_cons_join (d : List Char) (ds : List (List Char))
    (st : List SSEEvent × List Char) :
    (d :: ds).foldl feedOne st = feedOne st (d :: ds).flatten := by
  induction ds generalizing d st with
  | nil => simp [List.flatten]
  | cons d2 ds ih =>
    show (d2 :: ds).foldl feedOne (feedOne st d) = _
    rw [ih d2 (feedOne st d), feedOne_append]
    simp [List.flatten]

/-- C4: decoding is split-invariant — for every way of cutting the incoming
byte sequence into successive deliveries, the stateful decoder loop (parse
the buffer after each delivery, carrying the incomplete tail) produces
exactly the same event sequence and final buffer as decoding the entire
concatenated input in a single delivery; a frame spanning two deliveries is
therefore completed on the later delivery, never dropped. -/
theorem C4_split_invariance (ds : List (List Char)) :
    processAll ds = processAll [ds.flatten] := by
  cases ds with
  | nil => rfl
  | cons d ds =>
    have h1 := processAll_cons_join d ds ([], [])
    unfold processAll
    rw [h1]
    rfl

end SSEModel

namespace SSEModel

/-! ### C9: connection registry -/

theorem regLookup_foldl (ops : List RegOp) (reg : List (String × Nat)) (k : String)
    (hnd : (reg.map Prod.fst).Nodup) :
    alistLookup (ops.foldl applyRegOp reg) k
      = ops.foldl
          (fun acc op =>
            match op with
            | .openStream url now h => if streamKey url now = k then some h else acc
            | .settleStream url now => if streamKey url now = k then none else acc)
          (alistLookup reg k) := by
  induction ops generalizing reg with
  | nil => rfl
  | cons op ops ih =>
    cases op with
    | openStream url now h =>
      show alistLookup (ops.foldl applyRegOp (alistSet reg (streamKey url now) h)) k = _
      rw [ih _ (alistSet_nodup _ _ _ hnd), List.foldl_cons]
      congr 1
      by_cases hk : streamKey url now = k
      · subst hk
        rw [alistLookup_set_eq]
        simp
      · rw [alistLookup_set_ne _ _ _ _ hk]
        simp [hk]
    | settleStream url now =>
      show alistLookup (ops.foldl applyRegOp (alistDelete reg (streamKey url now))) k = _
      rw [ih _ (alistDelete_nodup _ _ hnd), List.foldl_cons]
      congr 1
      by_cases hk : streamKey url now = k
      · subst hk
        rw [alistLookup_delete_eq _ _ hnd]
        simp
      · rw [alistLookup_delete_ne _ _ _ hk]
        simp [hk]

/-- C9 counterexample: two streams created for the same URL in the same
millisecond share the registry key "u-5"; the second registration overwrites
the first, so handle 1 — still live, no terminal state reached — no longer
occupies any registry entry, contradicting the claim that a handle appears in
the registry for the entire interval between open and terminal state and that
live streams are never evicted by one another. -/
theorem C9_same_key_eviction_counterexample :
    runRegOps [RegOp.openStream "u" 5 1, RegOp.openStream "u" 5 2]
      = [(streamKey "u" 5, 2)] ∧
    1 ∉ (runRegOps [RegOp.openStream "u" 5 1, RegOp.openStream "u" 5 2]).map Prod.snd := by
  constructor
  · decide
  · decide

/-- C9 (amended): the registry entry under each key is exactly the most
recent un-settled open of that key — so a handle whose key (url plus
creation millisecond) is not reused stays registered from its open until the
settle of its terminal state removes it, is never duplicated, and never
outlives its terminal state; but an open that reuses a live key evicts the
earlier handle, and the evicted stream's settle then removes the newer
entry. -/
theorem C9_registry_refines_trace (ops : List RegOp) (k : String) :
    alistLookup (runRegOps ops) k = regSpecLookup ops k := by
  unfold runRegOps regSpecLookup
  exact regLookup_foldl ops [] k (by simp)

end SSEModel

namespace SSEModel

/-! ### C3: malformed frames degrade to chunks -/

/-- C3 counterexample: the malformed frame `data: \x7boops` degrades to a
chunk whose content is "\x7boops" — the payload with the `data: ` prefix
stripped — which is not equal to the raw line `data: \x7boops`, contradicting
the claim that the content equals the raw unparsed line. -/
theorem C3_content_is_payload_counterexample :
    parseSSELine ("data: \x7boops".toList)
      = some { type := .jstr "chunk"
               data := .jobj [("content", .jstr "\x7boops")]
               id := none } ∧
    ("\x7boops" : String) ≠ "data: \x7boops" :=
  ⟨rfl, by decide⟩

/-- C3 (amended): a `data: `-prefixed frame whose structured payload fails to
parse degrades to a chunk event whose content is the raw unparsed payload —
the line after the `data: ` prefix, trimmed — not the whole line; the decoder
is total (every line yields an event, nothing is thrown), and a malformed
frame between two valid frames contributes exactly its own degraded event
while the surrounding frames decode unchanged, so the stream continues. -/
theorem C3_malformed_payload_degrades :
    (∀ line : List Char, ("data: ".toList).isPrefixOf line = true →
      jsonParse (trimChars (line.drop 6)) = none →
      parseSSELine line
        = some { type := .jstr "chunk"
                 data := .jobj [("content", .jstr (String.mk (trimChars (line.drop 6))))]
                 id := none }) ∧
    (∀ line : List Char, (parseSSELine line).isSome = true) ∧
    (∀ (pre post : List (List Char)) (mal : List Char),
      (pre ++ mal :: post).filterMap decodeLine
        = pre.filterMap decodeLine ++ [mal].filterMap decodeLine
            ++ post.filterMap decodeLine) := by
  refine ⟨?_, ?_, ?_⟩
  · intro line h1 h2
    unfold parseSSELine
    rw [if_pos h1]
    simp [h2]
  · intro line
    unfold parseSSELine
    by_cases h : ("data: ".toList).isPrefixOf line
    · rw [if_pos h]
      cases hj : jsonParse (trimChars (line.drop 6)) <;> simp [hj]
    · rw [if_neg h]
      rfl
  · intro pre post mal
    rw [List.filterMap_append]
    cases hd : decodeLine mal <;> simp [List.filterMap_cons, hd]

/-- C3 witness: the amended behavior at the concrete malformed frame
`data: not json` between no other constraints — the payload fails to parse
and the produced chunk carries exactly that payload. -/
theorem C3_malformed_payload_degrades_witness :
    ("data: ".toList).isPrefixOf ("data: not json".toList) = true ∧
    jsonParse (trimChars (("data: not json".toList).drop 6)) = none ∧
    parseSSELine ("data: not json".toList)
      = some { type := .jstr "chunk"
               data := .jobj
                 [("content", .jstr (String.mk (trimChars (("data: not json".toList).drop 6))))]
               id := none } :=
  ⟨by decide, rfl,
   C3_malformed_payload_degrades.1 ("data: not json".toList) (by decide) rfl⟩

end SSEModel

namespace SSEModel

/-! ### C2: aggregate equals the concatenation of chunk contents -/

theorem stringEmptyAppend (s : String) : "" ++ s = s := by
  apply String.ext
  simp [String.data_append]

theorem splitParts_sep_of_no_newline (f : List Char) (h : '\n' ∉ f) :
    splitParts (f ++ sepNN) = ([f], []) := by
  induction f with
  | nil => decide
  | cons c f' ih =>
    have hc : c ≠ '\n' := fun he => h (by simp [he])
    have hf' : '\n' ∉ f' := fun he => h (by simp [he])
    cases f' with
    | nil =>
      show splitParts (c :: '\n' :: '\n' :: []) = ([[c]], [])
      simp [splitParts, hc]
    | cons c2 f'' =>
      have hih : splitParts (c2 :: (f'' ++ sepNN)) = ([c2 :: f''], []) := by
        have h2 := ih hf'
        simpa [List.cons_append] using h2
      show splitParts (c :: c2 :: (f'' ++ sepNN)) = ([c :: c2 :: f''], [])
      simp [splitParts, hc, hih]

theorem decodeLine_of_chunkFrame (f : List Char) (c : String) (h : ChunkFrame f c) :
    decodeLine f = some (chunkEventOf c) := by
  obtain ⟨hn, ht, hc, hp⟩ := h
  unfold decodeLine
  simp [ht, hp]

theorem chunkFrames_contents_ne_empty {fs : List (List Char)} {cs : List String}
    (h : List.Forall₂ ChunkFrame fs cs) : ∀ c ∈ cs, c ≠ "" := by
  induction h with
  | nil =>
    intro c hc
    simp at hc
  | cons hf hrest ih =>
    intro c hc
    rcases List.mem_cons.mp hc with he | he
    · subst he
      exact hf.2.2.1
    · exact ih c he

theorem processFrames (fs : List (List Char)) (cs : List String)
    (h : List.Forall₂ ChunkFrame fs cs) (acc : List SSEEvent) :
    (fs.map (fun f => f ++ sepNN)).foldl feedOne (acc, [])
      = (acc ++ cs.map chunkEventOf, []) := by
  induction h generalizing acc with
  | nil => simp
  | @cons f c fs' cs' hf hrest ih =>
    show (fs'.map _).foldl feedOne (feedOne (acc, []) (f ++ sepNN)) = _
    have hfeed : feedOne (acc, []) (f ++ sepNN) = (acc ++ [chunkEventOf c], []) := by
      unfold feedOne parseBuffer
      rw [List.nil_append, splitParts_sep_of_no_newline f hf.1]
      simp [decodeLine_of_chunkFrame f c hf]
    rw [hfeed, ih]
    simp

theorem feedOne_complete (acc : List SSEEvent) :
    feedOne (acc, []) completeFrameBytes = (acc ++ [parsedCompleteEvent], []) := rfl

theorem foldEvent_chunk (acc : String) (c : String) (hc : c ≠ "") :
    foldEvent acc (chunkEventOf c) = .ok (acc ++ c) := by
  unfold foldEvent chunkEventOf
  simp [jIsStr, jsGet, jfieldLast, jsOr, jsTruthy, jsToString, hc]

theorem foldEvents_chunks (cs : List String) (hne : ∀ c ∈ cs, c ≠ "")
    (acc : String) (tail : List SSEEvent) :
    foldEvents acc (cs.map chunkEventOf ++ tail) = foldEvents (acc ++ sconcat cs) tail := by
  induction cs generalizing acc with
  | nil =>
    show foldEvents acc tail = foldEvents (acc ++ sconcat []) tail
    rw [show acc ++ sconcat [] = acc from by
      apply String.ext
      simp [sconcat, String.data_append]]
  | cons c cs' ih =>
    show foldEvents acc (chunkEventOf c :: (cs'.map chunkEventOf ++ tail)) = _
    rw [foldEvents, foldEvent_chunk acc c (hne c (by simp))]
    show foldEvents (acc ++ c) (cs'.map chunkEventOf ++ tail) = _
    rw [ih (fun x hx => hne x (by simp [hx])) (acc ++ c)]
    rw [show (acc ++ c) ++ sconcat cs' = acc ++ sconcat (c :: cs') from by
      rw [sconcat, stringAppendAssoc]]

/-- C2 counterexample: a single well-formed chunk frame whose content is the
empty string, followed by the terminal complete frame, folds to the aggregate
"[object Object]" — the falsy empty content makes readToCompletion fall back
to the data object itself and string-coerce it — instead of the empty
concatenation claimed. -/
theorem C2_empty_content_counterexample :
    readToCompletionRun [emptyChunkFrameBytes, completeFrameBytes]
      = .ok "[object Object]" ∧ ("[object Object]" : String) ≠ "" :=
  ⟨rfl, by decide⟩

/-- C2 (amended): for every input of N well-formed chunk frames with nonempty
contents followed by the terminal complete frame, folding the decoded event
sequence (readToCompletion) yields an aggregate equal to the concatenation of
the N chunk contents in arrival order (a chunk frame with empty content would
instead contribute "[object Object]", as the counterexample shows). -/
theorem C2_aggregate_is_concatenation (fs : List (List Char)) (cs : List String)
    (h : List.Forall₂ ChunkFrame fs cs) :
    readToCompletionRun (fs.map (fun f => f ++ sepNN) ++ [completeFrameBytes])
      = .ok (sconcat cs) := by
  unfold readToCompletionRun processAll
  rw [List.foldl_append]
  rw [processFrames fs cs h []]
  show foldEvents ""
      ((feedOne (([] : List SSEEvent) ++ cs.map chunkEventOf, []) completeFrameBytes).1
        ++ [generatorCompleteEvent]) = _
  rw [List.nil_append, feedOne_complete, List.append_assoc]
  rw [foldEvents_chunks cs (chunkFrames_contents_ne_empty h) ""]
  show Except.ok ("" ++ sconcat cs) = Except.ok (sconcat cs)
  rw [stringEmptyAppend]

/-- C2 witness: the scenario's three frames — chunk "He", chunk "llo",
terminal complete — satisfy the well-formedness hypotheses and fold to the
aggregate "Hello". -/
theorem C2_aggregate_is_concatenation_witness :
    ChunkFrame heFrameBody "He" ∧ ChunkFrame lloFrameBody "llo" ∧
    readToCompletionRun [heFrameBody ++ sepNN, lloFrameBody ++ sepNN, completeFrameBytes]
      = .ok "Hello" := by
  have h1 : ChunkFrame heFrameBody "He" := ⟨by decide, by decide, by decide, rfl⟩
  have h2 : ChunkFrame lloFrameBody "llo" := ⟨by decide, by decide, by decide, rfl⟩
  have h3 := C2_aggregate_is_concatenation [heFrameBody, lloFrameBody] ["He", "llo"]
    (List.Forall₂.cons h1 (List.Forall₂.cons h2 List.Forall₂.nil))
  have h4 : sconcat ["He", "llo"] = "Hello" := by decide
  rw [h4] at h3
  exact ⟨h1, h2, by simpa using h3⟩

end SSEModel
